import Mathlib

/-!
Verification of the cohort evaluation engine of the User-Cohort system
(`cohort_visualization.py`).

The embedding models:
  * events as records with an optional (possibly missing / NaN) price;
  * conditions, cohorts and the in-memory registry;
  * `_users_meeting_condition` as `rawMatches` (per-user aggregation and
    comparator dispatch; a pandas KeyError on an unknown column is modelled
    as the `none` result);
  * `execute_cohort` as a left fold over the condition list with an optional
    accumulator, exactly as the Python loop does;
  * `get_cohort_users` as registry lookup plus delegation.

Instants are modelled as integers and `timedelta(days=t)` as subtraction of
`t`, which is faithful for every property considered here (only the order of
timestamps relative to the cutoff matters).  Prices and condition values are
rationals; a missing price (`None` / NaN after `pd.to_numeric`) is `Option.none`.
-/

namespace CohortSystem

/-- One row of the `user_events` DataFrame (columns built in
`generate_sample_data`): `user_id`, `event`, `timestamp`, `price` (numeric or
NaN, hence `Option`), `category`, `sku_id`, `brand`. -/
structure Event where
  user_id : String
  event : String
  timestamp : ℤ
  price : Option ℚ
  category : String
  sku_id : String
  brand : String
deriving DecidableEq, Repr

/-- A cohort condition record.  The source stores these as dicts with keys
`include`, `action`, `operation`, `property`, `condition` (the comparator),
`value`, `timeframe`, `logic`.  The Python keyword-ish key `include` is kept
via guillemets. -/
structure Condition where
  «include» : Bool
  action : String
  operation : String
  property : String
  condition : String
  value : ℚ
  timeframe : ℤ
  logic : Option String
deriving DecidableEq, Repr

/-- A cohort definition as stored in `self.cohorts`. -/
structure Cohort where
  id : ℤ
  name : String
  description : String
  conditions : List Condition
  active : Bool
deriving DecidableEq, Repr

/-- The state of `UserCohortSystem` that evaluation reads: the registry list,
the event snapshot and the fixed `self.now`. -/
structure UserCohortSystem where
  cohorts : List Cohort
  user_events : List Event
  now : ℤ
deriving Repr

/-- The event filter of `_users_meeting_condition`:
`(event == action) & (timestamp >= now - timedelta(days=timeframe))`. -/
def filteredEvents (cond : Condition) (events : List Event) (now : ℤ) : List Event :=
  events.filter (fun e => decide (e.event = cond.action ∧ now - cond.timeframe ≤ e.timestamp))

/-- The distinct user ids occurring in a list of events (a groupby index,
and for the full snapshot the `universe` of `execute_cohort`). -/
def usersOf (l : List Event) : Finset String :=
  (l.map Event.user_id).toFinset

/-- The rows of one user's group in `groupby("user_id")`. -/
def userEvents (l : List Event) (u : String) : List Event :=
  l.filter (fun e => decide (e.user_id = u))

/-- `groupby("user_id").size()`: number of matching events of a user. -/
def countAgg (l : List Event) (u : String) : ℚ :=
  ((userEvents l u).length : ℚ)

/-- `groupby("user_id")["price"].sum().fillna(0)`: pandas sums with
`skipna=True`, so every NaN contributes `0`, and an all-NaN group sums to `0`. -/
def sumAgg (l : List Event) (u : String) : ℚ :=
  ((userEvents l u).map (fun e => e.price.getD 0)).sum

/-- `groupby("user_id")["price"].mean().fillna(0)`: pandas takes the mean of
the non-NaN values only (`skipna=True`); a group whose prices are all NaN has
mean NaN, which `fillna(0)` turns into `0`. -/
def avgAgg (l : List Event) (u : String) : ℚ :=
  if ((userEvents l u).filterMap Event.price).length = 0 then 0
  else ((userEvents l u).filterMap Event.price).sum /
    (((userEvents l u).filterMap Event.price).length : ℚ)

/-- A cell value of the events DataFrame, for `nunique` counting. -/
inductive PVal where
  | str (s : String)
  | num (q : ℚ)
  | int (z : ℤ)
deriving DecidableEq, Repr

/-- The columns of the `user_events` DataFrame. -/
def eventCols : List String :=
  ["user_id", "event", "timestamp", "price", "category", "sku_id", "brand"]

/-- Cell lookup: `none` is a NaN cell (only `price` can be NaN); looking up a
name outside `eventCols` is a pandas KeyError and is guarded separately. -/
def colVal (e : Event) (c : String) : Option PVal :=
  if c = "user_id" then some (.str e.user_id)
  else if c = "event" then some (.str e.event)
  else if c = "timestamp" then some (.int e.timestamp)
  else if c = "price" then e.price.map PVal.num
  else if c = "category" then some (.str e.category)
  else if c = "sku_id" then some (.str e.sku_id)
  else if c = "brand" then some (.str e.brand)
  else none

/-- `groupby("user_id")[c].nunique()`: number of distinct non-NaN values of
column `c` among a user's matching events. -/
def distinctAgg (l : List Event) (c : String) (u : String) : ℚ :=
  ((((userEvents l u).filterMap (fun e => colVal e c)).dedup).length : ℚ)

/-- The comparator dispatch block repeated in every branch of
`_users_meeting_condition`: select the users whose aggregate satisfies the
comparator against `value`; any comparator outside the five known ones yields
the empty set. -/
def cmpFilter (cmp : String) (users : Finset String) (agg : String → ℚ) (v : ℚ) :
    Finset String :=
  if cmp = ">=" then users.filter (fun u => v ≤ agg u)
  else if cmp = ">" then users.filter (fun u => v < agg u)
  else if cmp = "<=" then users.filter (fun u => agg u ≤ v)
  else if cmp = "<" then users.filter (fun u => agg u < v)
  else if cmp = "==" then users.filter (fun u => agg u = v)
  else ∅

/-- `_users_meeting_condition`: the raw match set of a condition, before the
include/exclude flip.  `none` models the pandas KeyError raised by
`groupby("user_id")[target_prop]` when `target_prop` is not a DataFrame column
(only reachable on the `distinct_count` branch with a non-empty filter). -/
def rawMatches (cond : Condition) (events : List Event) (now : ℤ) :
    Option (Finset String) :=
  if (filteredEvents cond events now).isEmpty then some ∅
  else if cond.operation = "count" then
    some (cmpFilter cond.condition (usersOf (filteredEvents cond events now))
      (countAgg (filteredEvents cond events now)) cond.value)
  else if cond.operation = "sum" ∧ cond.property = "price" then
    some (cmpFilter cond.condition (usersOf (filteredEvents cond events now))
      (sumAgg (filteredEvents cond events now)) cond.value)
  else if cond.operation = "avg" ∧ cond.property = "price" then
    some (cmpFilter cond.condition (usersOf (filteredEvents cond events now))
      (avgAgg (filteredEvents cond events now)) cond.value)
  else if cond.operation = "distinct_count" then
    if (if cond.property = "" then "sku_id" else cond.property) ∈ eventCols then
      some (cmpFilter cond.condition (usersOf (filteredEvents cond events now))
        (distinctAgg (filteredEvents cond events now)
          (if cond.property = "" then "sku_id" else cond.property)) cond.value)
    else none
  else
    some (cmpFilter cond.condition (usersOf (filteredEvents cond events now))
      (countAgg (filteredEvents cond events now)) cond.value)

/-- Python's `x or default` for the optional `logic` string: `None` and the
empty string are falsy. -/
def pyOr (s : Option String) (d : String) : String :=
  match s with
  | none => d
  | some t => if t = "" then d else t

/-- Uppercasing of one ASCII character, as Python's `str.upper` acts on the
logic tokens used here. -/
def upperChar (c : Char) : Char :=
  if 97 ≤ c.toNat ∧ c.toNat ≤ 122 then Char.ofNat (c.toNat - 32) else c

/-- Python's `.upper()` (the logic tokens are ASCII, where `upper` maps each
character independently). -/
def strUpper (s : String) : String :=
  ⟨s.data.map upperChar⟩

/-- The include/exclude flip of `execute_cohort`:
`cond_users = met_users` when included, `universe - met_users` otherwise. -/
def applyInclude (uni : Finset String) (cond : Condition) (met : Finset String) :
    Finset String :=
  if cond.«include» then met else uni \ met

/-- The combiner of `execute_cohort`: `logic = (cond.get("logic") or "AND").upper()`,
then `AND` intersects, `OR` unions, and anything else falls to the
default-`AND` branch (intersection). -/
def combineLogic (lg : Option String) (acc cond_users : Finset String) : Finset String :=
  if strUpper (pyOr lg "AND") = "AND" then acc ∩ cond_users
  else if strUpper (pyOr lg "AND") = "OR" then acc ∪ cond_users
  else acc ∩ cond_users

/-- One iteration of the `for i, cond in enumerate(conditions)` loop: the
outer `Option` is exception propagation from `rawMatches`, the inner one is
the `current_set` accumulator that starts as Python `None`. -/
def condStep (uni : Finset String) (events : List Event) (now : ℤ)
    (cur : Option (Finset String)) (cond : Condition) : Option (Option (Finset String)) :=
  (rawMatches cond events now).map (fun met =>
    some (match cur with
      | none => applyInclude uni cond met
      | some s => combineLogic cond.logic s (applyInclude uni cond met)))

/-- `execute_cohort`: empty condition list short-circuits to `[]`; otherwise
fold the conditions over the optional accumulator and return the sorted list
of the final set (`sorted(list(current_set))`). -/
def execute_cohort (cohort : Cohort) (events : List Event) (now : ℤ) :
    Option (List String) :=
  if cohort.conditions.isEmpty then some []
  else
    (cohort.conditions.foldlM (condStep (usersOf events) events now) none).map
      (fun cur => match cur with
        | none => []
        | some s => s.sort (· ≤ ·))

/-- `get_cohort_users`: first cohort with the requested id; unknown id or an
inactive cohort yields `[]`, otherwise delegate to `execute_cohort`. -/
def get_cohort_users (sys : UserCohortSystem) (cohort_id : ℤ) : Option (List String) :=
  match sys.cohorts.find? (fun c => c.id == cohort_id) with
  | none => some []
  | some c => if c.active then execute_cohort c sys.user_events sys.now else some []

/-! ### Definitions taken from the specification's wording, for comparison -/

/-- The `avg` aggregate as the specification describes it: the mean of the
price over ALL matching events of the user, a missing price contributing `0`
to the numerator while still being counted in the denominator. -/
def avgAggSpecZero (l : List Event) (u : String) : ℚ :=
  if (userEvents l u).length = 0 then 0
  else ((userEvents l u).map (fun e => e.price.getD 0)).sum / ((userEvents l u).length : ℚ)

/-- The `avg` aggregate with missing prices skipped: the mean over only those
matching events of the user that carry a price, and `0` when none does. -/
def avgAggSpecSkip (l : List Event) (u : String) : ℚ :=
  if ((userEvents l u).filter (fun e => e.price.isSome)).length = 0 then 0
  else (((userEvents l u).filter (fun e => e.price.isSome)).map (fun e => e.price.getD 0)).sum /
    ((((userEvents l u).filter (fun e => e.price.isSome)).length : ℚ))

/-- The condition combiner as the specification's claim words it: the token
`OR` unions, any other logic value (`AND`, absent, or an unrecognized token)
intersects. -/
def claimCombine (lg : Option String) (acc cond_users : Finset String) : Finset String :=
  if lg = some "OR" then acc ∪ cond_users else acc ∩ cond_users

/-! ### Concrete sample data for witnesses and counterexamples -/

/-- A user-`A` event of action `a` with no price. -/
def evA : Event := ⟨"A", "a", 10, none, "cat", "s1", "br"⟩

/-- A user-`B` event of action `b` with price 500. -/
def evB : Event := ⟨"B", "b", 10, some 500, "cat", "s1", "br"⟩

/-- A user-`A` `cart_added` event whose price is missing (NaN). -/
def evPn : Event := ⟨"A", "cart_added", 10, none, "cat", "s1", "br"⟩

/-- A user-`A` `cart_added` event priced 2000. -/
def evPp : Event := ⟨"A", "cart_added", 10, some 2000, "cat", "s2", "br"⟩

/-- A simple count condition on action `a`. -/
def condCountA : Condition := ⟨true, "a", "count", "events", ">=", 1, 30, some "AND"⟩

/-- A count condition on action `b` that no single event can reach. -/
def condCountB5 : Condition := ⟨true, "b", "count", "events", ">=", 5, 30, some "or"⟩

/-- An `avg`-of-price condition with threshold 1500. -/
def condAvg1500 : Condition := ⟨true, "cart_added", "avg", "price", ">=", 1500, 30, none⟩

/-- A `distinct_count` condition naming a property that is not a DataFrame
column, with a comparator outside the known enumeration. -/
def condBadCol : Condition := ⟨true, "a", "distinct_count", "bogus", "!=", 1, 30, none⟩

/-- A two-condition cohort whose second condition carries the lowercase
logic token `or`. -/
def cohLowerOr : Cohort := ⟨1, "w", "d", [condCountA, condCountB5], true⟩

/-- A one-condition cohort matching user `A`. -/
def cohSingle : Cohort := ⟨3, "single", "d", [condCountA], true⟩

/-- A count condition with the unrecognized comparator `!=`. -/
def condNeq : Condition := ⟨true, "a", "count", "events", "!=", 1, 30, none⟩

/-! ### General lemmas about the evaluator -/

/-- Whatever the comparator, `cmpFilter` only selects members of `users`. -/
theorem cmpFilter_subset (cmp : String) (users : Finset String) (agg : String → ℚ)
    (v : ℚ) : cmpFilter cmp users agg v ⊆ users := by
  unfold cmpFilter
  split_ifs <;> first
    | exact Finset.filter_subset _ _
    | exact Finset.empty_subset _

/-- The users of the time/action-filtered events are users of the snapshot. -/
theorem usersOf_filteredEvents_subset (cond : Condition) (E : List Event) (now : ℤ) :
    usersOf (filteredEvents cond E now) ⊆ usersOf E := by
  intro x hx
  simp only [usersOf, List.mem_toFinset, List.mem_map, filteredEvents,
    List.mem_filter] at hx ⊢
  obtain ⟨e, ⟨he, _⟩, hx⟩ := hx
  exact ⟨e, he, hx⟩

/-- A successful raw match set only contains users of the event snapshot. -/
theorem rawMatches_subset (cond : Condition) (E : List Event) (now : ℤ)
    (m : Finset String) (h : rawMatches cond E now = some m) : m ⊆ usersOf E := by
  unfold rawMatches at h
  split_ifs at h
  all_goals cases h
  all_goals first
    | exact Finset.empty_subset _
    | exact (cmpFilter_subset _ _ _ _).trans (usersOf_filteredEvents_subset cond E now)

/-- The action/timeframe filter never looks at the operation field. -/
theorem filteredEvents_set_operation (cond : Condition) (op : String) (E : List Event)
    (now : ℤ) : filteredEvents { cond with operation := op } E now = filteredEvents cond E now :=
  rfl

/-- An unrecognized comparator makes the comparator dispatch empty. -/
theorem cmpFilter_unknown (cmp : String) (users : Finset String) (agg : String → ℚ)
    (v : ℚ) (h1 : cmp ≠ ">=") (h2 : cmp ≠ ">") (h3 : cmp ≠ "<=") (h4 : cmp ≠ "<")
    (h5 : cmp ≠ "==") : cmpFilter cmp users agg v = ∅ := by
  simp [cmpFilter, h1, h2, h3, h4, h5]

/-! ### Claims -/

/-- Claim C8: a cohort with no conditions evaluates to the empty sequence
without evaluating any condition, and a condition whose action/timeframe
filter matches no events has an empty raw match set; neither is an error. -/
theorem c8_empty_inputs (coh : Cohort) (cond : Condition) (E : List Event) (now : ℤ) :
    (coh.conditions = [] → execute_cohort coh E now = some []) ∧
    (filteredEvents cond E now = [] → rawMatches cond E now = some ∅) := by
  constructor
  · intro h
    simp [execute_cohort, h]
  · intro h
    simp [rawMatches, h]

/-- Witness for C8 at a concrete empty cohort and a concrete condition whose
action matches no event. -/
theorem c8_empty_inputs_witness :
    execute_cohort ⟨7, "empty", "d", [], true⟩ [evA] 11 = some [] ∧
    rawMatches condCountB5 [evA] 11 = some ∅ :=
  ⟨(c8_empty_inputs ⟨7, "empty", "d", [], true⟩ condCountB5 [evA] 11).1 rfl,
   (c8_empty_inputs ⟨7, "empty", "d", [], true⟩ condCountB5 [evA] 11).2 (by decide)⟩

/-- Claim C9: `get_cohort_users` returns the empty sequence when the id is
unknown or the found cohort is inactive, and otherwise delegates evaluation
to `execute_cohort` on the stored snapshot. -/
theorem c9_get_cohort_users (sys : UserCohortSystem) (cohort_id : ℤ) :
    (sys.cohorts.find? (fun c => c.id == cohort_id) = none →
      get_cohort_users sys cohort_id = some []) ∧
    (∀ c, sys.cohorts.find? (fun c => c.id == cohort_id) = some c → c.active = false →
      get_cohort_users sys cohort_id = some []) ∧
    (∀ c, sys.cohorts.find? (fun c => c.id == cohort_id) = some c → c.active = true →
      get_cohort_users sys cohort_id = execute_cohort c sys.user_events sys.now) := by
  refine ⟨fun h => ?_, fun c h ha => ?_, fun c h ha => ?_⟩
  · simp [get_cohort_users, h]
  · simp [get_cohort_users, h, ha]
  · simp [get_cohort_users, h, ha]

/-- Witness for C9 on a registry with one inactive and one active cohort:
an unknown id and the inactive id give `[]`, the active id delegates. -/
theorem c9_get_cohort_users_witness :
    get_cohort_users ⟨[⟨1, "i", "d", [condCountA], false⟩, ⟨2, "a", "d", [], true⟩], [evA], 11⟩ 99
      = some [] ∧
    get_cohort_users ⟨[⟨1, "i", "d", [condCountA], false⟩, ⟨2, "a", "d", [], true⟩], [evA], 11⟩ 1
      = some [] ∧
    get_cohort_users ⟨[⟨1, "i", "d", [condCountA], false⟩, ⟨2, "a", "d", [], true⟩], [evA], 11⟩ 2
      = execute_cohort ⟨2, "a", "d", [], true⟩ [evA] 11 :=
  ⟨(c9_get_cohort_users _ 99).1 (by decide),
   (c9_get_cohort_users _ 1).2.1 ⟨1, "i", "d", [condCountA], false⟩ (by decide) rfl,
   (c9_get_cohort_users _ 2).2.2 ⟨2, "a", "d", [], true⟩ (by decide) rfl⟩

/-- Claim C5: with `include = false` the per-condition set used by the fold
is the complement of the raw match set in the universe, the two are disjoint,
and together they cover the universe. -/
theorem c5_complement (cond : Condition) (E : List Event) (now : ℤ)
    (m : Finset String) (h : rawMatches cond E now = some m)
    (hinc : cond.«include» = false) :
    applyInclude (usersOf E) cond m = usersOf E \ m ∧
    m ∩ (usersOf E \ m) = ∅ ∧
    m ∪ (usersOf E \ m) = usersOf E := by
  refine ⟨by simp [applyInclude, hinc], Finset.inter_sdiff_self _ _, ?_⟩
  exact Finset.union_sdiff_of_subset (rawMatches_subset cond E now m h)

/-- Witness for C5 at a concrete excluded condition. -/
theorem c5_complement_witness :
    rawMatches ⟨false, "a", "count", "events", ">=", 1, 30, none⟩ [evA, evB] 11
      = some {"A"} ∧
    applyInclude (usersOf [evA, evB]) ⟨false, "a", "count", "events", ">=", 1, 30, none⟩ {"A"}
      = usersOf [evA, evB] \ {"A"} ∧
    ({"A"} : Finset String) ∩ (usersOf [evA, evB] \ {"A"}) = ∅ ∧
    ({"A"} : Finset String) ∪ (usersOf [evA, evB] \ {"A"}) = usersOf [evA, evB] :=
  ⟨by decide,
   (c5_complement ⟨false, "a", "count", "events", ">=", 1, 30, none⟩ [evA, evB] 11 {"A"}
     (by decide) rfl).1,
   (c5_complement ⟨false, "a", "count", "events", ">=", 1, 30, none⟩ [evA, evB] 11 {"A"}
     (by decide) rfl).2.1,
   (c5_complement ⟨false, "a", "count", "events", ">=", 1, 30, none⟩ [evA, evB] 11 {"A"}
     (by decide) rfl).2.2⟩

/-- Claim C3: a condition with an operation outside
`{count, sum, avg, distinct_count}` evaluates exactly like the same condition
with operation `count`, and it never fails. -/
theorem c3_unknown_operation (cond : Condition) (E : List Event) (now : ℤ)
    (h1 : cond.operation ≠ "count") (h2 : cond.operation ≠ "sum")
    (h3 : cond.operation ≠ "avg") (h4 : cond.operation ≠ "distinct_count") :
    rawMatches cond E now = rawMatches { cond with operation := "count" } E now ∧
    ∃ s, rawMatches cond E now = some s := by
  have hmain : rawMatches cond E now = rawMatches { cond with operation := "count" } E now := by
    simp [rawMatches, h1, h2, h3, h4, filteredEvents_set_operation]
  refine ⟨hmain, ?_⟩
  rw [hmain]
  unfold rawMatches
  split_ifs <;> first | exact ⟨_, rfl⟩ | simp_all

/-- Witness for C3 at a concrete condition with operation `median`. -/
theorem c3_unknown_operation_witness :
    rawMatches ⟨true, "a", "median", "events", ">=", 1, 30, none⟩ [evA, evB] 11
      = rawMatches ⟨true, "a", "count", "events", ">=", 1, 30, none⟩ [evA, evB] 11 ∧
    rawMatches ⟨true, "a", "median", "events", ">=", 1, 30, none⟩ [evA, evB] 11
      = some {"A"} :=
  ⟨(c3_unknown_operation ⟨true, "a", "median", "events", ">=", 1, 30, none⟩ [evA, evB] 11
      (by decide) (by decide) (by decide) (by decide)).1,
   by decide⟩

/-- Claim C10: `sum` or `avg` with a property other than the exact string
`price` silently degrades to `count` semantics. -/
theorem c10_sum_avg_wrong_property (cond : Condition) (E : List Event) (now : ℤ)
    (hop : cond.operation = "sum" ∨ cond.operation = "avg")
    (hp : cond.property ≠ "price") :
    rawMatches cond E now = rawMatches { cond with operation := "count" } E now := by
  rcases hop with hop | hop <;> simp [rawMatches, hop, hp, filteredEvents_set_operation]

/-- Witness for C10 at a concrete `sum` condition over property `amount`. -/
theorem c10_sum_avg_wrong_property_witness :
    rawMatches ⟨true, "a", "sum", "amount", ">=", 1, 30, none⟩ [evA, evB] 11
      = rawMatches ⟨true, "a", "count", "amount", ">=", 1, 30, none⟩ [evA, evB] 11 :=
  c10_sum_avg_wrong_property ⟨true, "a", "sum", "amount", ">=", 1, 30, none⟩ [evA, evB] 11
    (Or.inl rfl) (by decide)

/-- Raising the threshold of a `>=` comparison shrinks the comparator filter. -/
theorem cmpFilter_ge_antitone (users : Finset String) (agg : String → ℚ) (v1 v2 : ℚ)
    (h : v1 ≤ v2) : cmpFilter ">=" users agg v2 ⊆ cmpFilter ">=" users agg v1 := by
  simp only [cmpFilter, if_pos rfl]
  exact Finset.monotone_filter_right _ (fun u hu => le_trans h hu)

/-- Claim C6: with comparator `>=` and all other fields fixed, a larger value
produces a raw match set contained in that of a smaller value. -/
theorem c6_value_monotone (cond : Condition) (E : List Event) (now : ℤ) (v2 : ℚ)
    (s1 s2 : Finset String) (hc : cond.condition = ">=") (hv : cond.value ≤ v2)
    (h1 : rawMatches cond E now = some s1)
    (h2 : rawMatches { cond with value := v2 } E now = some s2) : s2 ⊆ s1 := by
  have hf : filteredEvents { cond with value := v2 } E now = filteredEvents cond E now := rfl
  unfold rawMatches at h1 h2
  rw [hf] at h2
  dsimp only at h2
  split_ifs at h1 h2
  all_goals (try cases h1)
  all_goals (try cases h2)
  all_goals first
    | (rw [hc]; exact cmpFilter_ge_antitone _ _ _ _ hv)
    | exact Finset.empty_subset _

/-- Witness for C6: thresholds 1 and 2 on a count condition, where user `B`
(one matching event) passes the first threshold but not the second. -/
theorem c6_value_monotone_witness :
    rawMatches ⟨true, "c", "count", "events", ">=", 1, 30, none⟩
      [⟨"A", "c", 10, none, "cat", "s1", "br"⟩, ⟨"A", "c", 9, none, "cat", "s1", "br"⟩,
       ⟨"B", "c", 10, none, "cat", "s1", "br"⟩] 11 = some {"A", "B"} ∧
    rawMatches ⟨true, "c", "count", "events", ">=", 2, 30, none⟩
      [⟨"A", "c", 10, none, "cat", "s1", "br"⟩, ⟨"A", "c", 9, none, "cat", "s1", "br"⟩,
       ⟨"B", "c", 10, none, "cat", "s1", "br"⟩] 11 = some {"A"} ∧
    ({"A"} : Finset String) ⊆ {"A", "B"} :=
  ⟨by decide, by decide,
   c6_value_monotone ⟨true, "c", "count", "events", ">=", 1, 30, none⟩
     [⟨"A", "c", 10, none, "cat", "s1", "br"⟩, ⟨"A", "c", 9, none, "cat", "s1", "br"⟩,
      ⟨"B", "c", 10, none, "cat", "s1", "br"⟩] 11 2 {"A", "B"} {"A"}
     rfl (by decide) (by decide) (by decide)⟩

/-- Claim C7: a successful cohort evaluation yields a strictly sorted,
duplicate-free sequence, and re-evaluating against the unchanged snapshot
yields the identical sequence. -/
theorem c7_sorted_deterministic (coh : Cohort) (E : List Event) (now : ℤ)
    (l : List String) (h : execute_cohort coh E now = some l) :
    l.Sorted (· < ·) ∧ l.Nodup ∧
      ∀ l2, execute_cohort coh E now = some l2 → l2 = l := by
  have hform : l = [] ∨ ∃ s : Finset String, l = s.sort (· ≤ ·) := by
    unfold execute_cohort at h
    split_ifs at h
    · exact Or.inl (Option.some.inj h).symm
    · obtain ⟨cur, hcur, hrender⟩ := Option.map_eq_some'.mp h
      cases cur with
      | none => exact Or.inl hrender.symm
      | some s => exact Or.inr ⟨s, hrender.symm⟩
  refine ⟨?_, ?_, ?_⟩
  · rcases hform with rfl | ⟨s, rfl⟩
    · exact List.sorted_nil
    · exact Finset.sort_sorted_lt s
  · rcases hform with rfl | ⟨s, rfl⟩
    · exact List.nodup_nil
    · exact Finset.sort_nodup _ s
  · intro l2 h2
    rw [h] at h2
    exact (Option.some.inj h2).symm

/-- Witness for C7 on a one-condition cohort that evaluates to `["A"]`. -/
theorem c7_sorted_deterministic_witness :
    execute_cohort cohSingle [evA] 11 = some ["A"] ∧
    (["A"] : List String).Sorted (· < ·) ∧ (["A"] : List String).Nodup := by
  have h : execute_cohort cohSingle [evA] 11 = some ["A"] := by
    have hr : rawMatches condCountA [evA] 11 = some {"A"} := by decide
    simp [execute_cohort, cohSingle, List.foldlM, condStep, hr]
    simp [applyInclude, condCountA]
  exact ⟨h, (c7_sorted_deterministic cohSingle [evA] 11 ["A"] h).1,
    (c7_sorted_deterministic cohSingle [evA] 11 ["A"] h).2.1⟩

/-- Counterexample to C4 as stated: with the unknown comparator `!=`, a
`distinct_count` condition over the non-column `bogus` raises a KeyError
(modelled `none`) instead of returning the empty set. -/
theorem c4_counterexample :
    ("!=" ∉ ([">=", ">", "<=", "<", "=="] : List String)) ∧
    filteredEvents condBadCol [evA] 11 ≠ [] ∧
    rawMatches condBadCol [evA] 11 = none :=
  ⟨by decide, by decide, by decide⟩

/-- Claim C4 (amended): an unknown comparator yields the empty raw match set
in every branch that completes; the one exception is the `distinct_count`
branch with a property that names no DataFrame column and a non-empty
filtered event list, which raises (KeyError) before the comparator dispatch. -/
theorem c4_unknown_comparator (cond : Condition) (E : List Event) (now : ℤ)
    (h : cond.condition ∉ ([">=", ">", "<=", "<", "=="] : List String)) :
    rawMatches cond E now =
      if cond.operation = "distinct_count" ∧ filteredEvents cond E now ≠ [] ∧
          (if cond.property = "" then "sku_id" else cond.property) ∉ eventCols
      then none
      else some ∅ := by
  simp only [List.mem_cons, List.not_mem_nil, or_false, not_or] at h
  obtain ⟨h1, h2, h3, h4, h5⟩ := h
  have hcf : ∀ users agg, cmpFilter cond.condition users agg cond.value = ∅ :=
    fun users agg => cmpFilter_unknown _ users agg _ h1 h2 h3 h4 h5
  unfold rawMatches
  split_ifs <;>
    first
      | rfl
      | exact congrArg some (hcf _ _)
      | simp_all [List.isEmpty_iff]

/-- Witness for C4 (amended) at a concrete `count` condition with comparator
`!=`, which lands in the no-error branch and returns the empty set. -/
theorem c4_unknown_comparator_witness :
    ("!=" ∉ ([">=", ">", "<=", "<", "=="] : List String)) ∧
    rawMatches condNeq [evA] 11 =
      if condNeq.operation = "distinct_count" ∧ filteredEvents condNeq [evA] 11 ≠ [] ∧
          (if condNeq.property = "" then "sku_id" else condNeq.property) ∉ eventCols
      then none
      else some ∅ :=
  ⟨by decide, c4_unknown_comparator condNeq [evA] 11 (by decide)⟩

/-- Events with a price are exactly the entries of `filterMap price`. -/
theorem filterMap_price_eq (l : List Event) :
    l.filterMap Event.price =
      (l.filter (fun e => e.price.isSome)).map (fun e => e.price.getD 0) := by
  induction l with
  | nil => rfl
  | cons e l ih =>
    cases he : e.price with
    | none => simp [List.filterMap_cons, List.filter_cons, he, ih]
    | some p => simp [List.filterMap_cons, List.filter_cons, he, ih]

/-- The code's `avg` aggregate is the mean over priced events only. -/
theorem avgAgg_eq_avgAggSpecSkip (l : List Event) (u : String) :
    avgAgg l u = avgAggSpecSkip l u := by
  unfold avgAgg avgAggSpecSkip
  rw [filterMap_price_eq]
  simp

/-- Counterexample to C1 as stated: user `A` has two matching `cart_added`
events, one with a missing price and one priced 2000.  The claimed policy
(missing prices count as 0 in the denominator) gives the aggregate 1000,
which is below the 1500 threshold, yet the evaluation matches `A`: pandas
skips the NaN and averages 2000 over one event. -/
theorem c1_counterexample :
    rawMatches condAvg1500 [evPn, evPp] 11 = some {"A"} ∧
    avgAggSpecZero (filteredEvents condAvg1500 [evPn, evPp] 11) "A" = 1000 ∧
    ¬ (condAvg1500.value ≤ (1000 : ℚ)) := by
  refine ⟨?_, ?_, by decide⟩
  · simp +decide [rawMatches, filteredEvents, usersOf, userEvents, avgAgg, cmpFilter,
      condAvg1500, evPn, evPp, Finset.filter_singleton, List.filter]
  · norm_num [avgAggSpecZero, userEvents, filteredEvents, condAvg1500, evPn, evPp,
      List.filter]

/-- Claim C1 (amended): for an `avg`/`price` condition, the per-user
aggregate is the mean of the prices over the user's matching events that
carry a price — missing (NaN) prices are skipped, not counted as 0 — and a
user none of whose matching events carries a price gets aggregate 0. -/
theorem c1_avg_skips_missing (cond : Condition) (E : List Event) (now : ℤ)
    (h1 : cond.operation = "avg") (h2 : cond.property = "price") :
    rawMatches cond E now = some
      (if (filteredEvents cond E now).isEmpty then ∅
       else cmpFilter cond.condition (usersOf (filteredEvents cond E now))
         (avgAggSpecSkip (filteredEvents cond E now)) cond.value) := by
  have hagg : avgAgg (filteredEvents cond E now) = avgAggSpecSkip (filteredEvents cond E now) :=
    funext (avgAgg_eq_avgAggSpecSkip _)
  unfold rawMatches
  rw [hagg]
  simp +decide [h1, h2]
  split_ifs <;> rfl

/-- Witness for C1 (amended) at the concrete `avg` condition of the
counterexample data. -/
theorem c1_avg_skips_missing_witness :
    rawMatches condAvg1500 [evPn, evPp] 11 = some
      (if (filteredEvents condAvg1500 [evPn, evPp] 11).isEmpty then ∅
       else cmpFilter condAvg1500.condition (usersOf (filteredEvents condAvg1500 [evPn, evPp] 11))
         (avgAggSpecSkip (filteredEvents condAvg1500 [evPn, evPp] 11)) condAvg1500.value) :=
  c1_avg_skips_missing condAvg1500 [evPn, evPp] 11 rfl rfl

/-- The combiner of `execute_cohort`, restated as one decision: union when
the falsy-defaulted, uppercased logic token is `OR`, intersection otherwise. -/
theorem combineLogic_eq (lg : Option String) (acc cu : Finset String) :
    combineLogic lg acc cu =
      if strUpper (pyOr lg "AND") = "OR" then acc ∪ cu else acc ∩ cu := by
  unfold combineLogic
  by_cases g : strUpper (pyOr lg "AND") = "OR"
  · simp +decide [g]
  · by_cases g2 : strUpper (pyOr lg "AND") = "AND"
    · simp [g, g2]
    · simp [g, g2]

/-- Once the accumulator is a set (after the first condition), the loop of
`execute_cohort` is a plain fold that combines each later condition by its
own logic field. -/
theorem foldlM_condStep_some (uni : Finset String) (E : List Event) (now : ℤ)
    (cs : List Condition) (s : Finset String) :
    cs.foldlM (condStep uni E now) (some s) =
      (cs.foldlM (fun acc cond => (rawMatches cond E now).map (fun met =>
          if strUpper (pyOr cond.logic "AND") = "OR" then acc ∪ applyInclude uni cond met
          else acc ∩ applyInclude uni cond met)) s).map some := by
  induction cs generalizing s with
  | nil => rfl
  | cons c cs ih =>
    cases h : rawMatches c E now with
    | none => simp [List.foldlM_cons, condStep, h]
    | some met => simp [List.foldlM_cons, condStep, h, ih, combineLogic_eq]

/-- Structure of `execute_cohort` on a non-empty condition list: the first
condition (include-flipped) seeds the accumulator without consulting any
logic field; every later condition is combined by its own logic field,
union for (normalized) `OR` and intersection for anything else. -/
theorem execute_cohort_cons (coh : Cohort) (E : List Event) (now : ℤ)
    (c : Condition) (cs : List Condition) (h : coh.conditions = c :: cs) :
    execute_cohort coh E now =
      (rawMatches c E now).bind (fun met =>
        (cs.foldlM (fun acc cond => (rawMatches cond E now).map (fun met2 =>
            if strUpper (pyOr cond.logic "AND") = "OR" then
              acc ∪ applyInclude (usersOf E) cond met2
            else acc ∩ applyInclude (usersOf E) cond met2))
          (applyInclude (usersOf E) c met)).map (fun sf => sf.sort (· ≤ ·))) := by
  unfold execute_cohort
  rw [h]
  simp only [List.isEmpty_cons, Bool.false_eq_true, if_false, List.foldlM_cons]
  cases hr : rawMatches c E now with
  | none => simp [condStep, hr]
  | some met =>
    simp [condStep, hr, foldlM_condStep_some, Option.map_map]
    congr 1

/-- Counterexample to C2 as stated: the code uppercases the logic token, so
the lowercase token `or` on the second condition unions, while the claim
(anything other than `OR` intersects) predicts the empty result. -/
theorem c2_counterexample :
    execute_cohort cohLowerOr [evA, evB] 11 = some ["A"] ∧
    rawMatches condCountA [evA, evB] 11 = some {"A"} ∧
    rawMatches condCountB5 [evA, evB] 11 = some ∅ ∧
    applyInclude (usersOf [evA, evB]) condCountB5 ∅ = ∅ ∧
    claimCombine condCountB5.logic {"A"} ∅ = ∅ ∧
    Finset.sort (· ≤ ·) (claimCombine condCountB5.logic {"A"} ∅) = [] := by
  refine ⟨?_, by decide, by decide, by decide, by decide, ?_⟩
  · have h1 : rawMatches condCountA [evA, evB] 11 = some {"A"} := by decide
    have h2 : rawMatches condCountB5 [evA, evB] 11 = some ∅ := by decide
    have h5 : applyInclude (usersOf [evA, evB]) condCountA {"A"} = {"A"} := by decide
    have h4 : applyInclude (usersOf [evA, evB]) condCountB5 ∅ = ∅ := by decide
    have h3 : combineLogic condCountB5.logic {"A"} ∅ = {"A"} := by decide
    simp [execute_cohort, cohLowerOr, List.foldlM, condStep, h1, h2, h5, h4, h3]
  · have h : claimCombine condCountB5.logic {"A"} ∅ = ∅ := by decide
    rw [h]
    simp

/-- Claim C2 (amended): for a cohort with at least one condition, the first
condition seeds the accumulator and its logic field is never consulted;
every later condition i is combined using the logic field of condition i
itself, normalized as Python does (`None`/empty replaced by `AND`, then
uppercased): a normalized `OR` unions, anything else intersects. -/
theorem c2_logic_attribution (coh : Cohort) (E : List Event) (now : ℤ)
    (c : Condition) (cs : List Condition) (h : coh.conditions = c :: cs) :
    (execute_cohort coh E now =
      (rawMatches c E now).bind (fun met =>
        (cs.foldlM (fun acc cond => (rawMatches cond E now).map (fun met2 =>
            if strUpper (pyOr cond.logic "AND") = "OR" then
              acc ∪ applyInclude (usersOf E) cond met2
            else acc ∩ applyInclude (usersOf E) cond met2))
          (applyInclude (usersOf E) c met)).map (fun sf => sf.sort (· ≤ ·)))) ∧
    (∀ lg, execute_cohort { coh with conditions := { c with logic := lg } :: cs } E now =
      execute_cohort coh E now) := by
  refine ⟨execute_cohort_cons coh E now c cs h, fun lg => ?_⟩
  rw [execute_cohort_cons coh E now c cs h,
    execute_cohort_cons { coh with conditions := { c with logic := lg } :: cs } E now
      { c with logic := lg } cs rfl]
  rfl

/-- Witness for C2 (amended): replacing the first condition's logic field of
the concrete two-condition cohort changes nothing. -/
theorem c2_logic_attribution_witness :
    cohLowerOr.conditions = condCountA :: [condCountB5] ∧
    execute_cohort
        { cohLowerOr with conditions := { condCountA with logic := some "XYZ" } :: [condCountB5] }
        [evA, evB] 11 =
      execute_cohort cohLowerOr [evA, evB] 11 :=
  ⟨rfl, (c2_logic_attribution cohLowerOr [evA, evB] 11 condCountA [condCountB5] rfl).2
    (some "XYZ")⟩

end CohortSystem
